import Mathlib

/-!
Verification of the fault-injection file system (FIFS) of this repository
against its natural-language specification.  The definitions below are a
shallow embedding of utilities/fault_injection_fs.cc: byte strings are
lists of naturals, std::map containers are association lists, random
draws and results of calls into the underlying (host) file system are
explicit oracle parameters, and every wrapper operation is a pure
function from the facade state and the per-file state to a status plus
updated states.
-/

namespace FIFS

/-- Status values returned by every operation, mirroring IOStatus in the
source: OK, IOError, Corruption and NotFound, the error kinds carrying a
message byte string. -/
inductive IOStatus where
  | ok : IOStatus
  | ioError (msg : List Nat) : IOStatus
  | corruption (msg : List Nat) : IOStatus
  | notFound : IOStatus
deriving DecidableEq, Repr

/-- Byte string of an ASCII string literal, used for the fixed error
messages of the source. -/
def bytes (s : String) : List Nat :=
  s.data.map Char.toNat

/-- Operation tags passed to the thread-local read-error injector
(ErrorOperation in the source). -/
inductive ErrorOperation where
  | kRead
  | kMultiReadSingleReq
  | kMultiRead
  | kOpen
deriving DecidableEq, Repr

/-- File types used by the write-error allow list (FileType in the
source; the concrete constructors are external to this file, only
equality matters). -/
inductive FileType where
  | kWalFile
  | kTableFile
  | kDescriptorFile
  | kTempFile
  | kOtherFile
deriving DecidableEq, Repr

/-- Checksum types of the handoff verification (ChecksumType). -/
inductive ChecksumType where
  | kNoChecksum
  | kCRC32c
  | kxxHash
deriving DecidableEq, Repr

/-- Little-endian fixed-32 encoding (PutFixed32 in the source). -/
def putFixed32 (v : Nat) : List Nat :=
  [v % 256, v / 256 % 256, v / 2 ^ 16 % 256, v / 2 ^ 24 % 256]

/-- CalculateTypedChecksum from the source: dispatch on the checksum
type; the CRC32C and xxHash32 primitives are external collaborators and
are passed in as function parameters. -/
def CalculateTypedChecksum (crc32c xxh32 : List Nat → Nat)
    (t : ChecksumType) (data : List Nat) : List Nat :=
  match t with
  | ChecksumType.kCRC32c => putFixed32 (crc32c data)
  | ChecksumType.kxxHash => putFixed32 (xxh32 data)
  | ChecksumType.kNoChecksum => []

/-- FSFileState of the source: per-writable-file buffered-write state.
Positions are ssize_t, hence integers. -/
structure FSFileState where
  filename : String
  buffer : List Nat
  pos : Int
  pos_at_last_flush : Int
  pos_at_last_sync : Int
deriving DecidableEq, Repr

/-- Initial state of a freshly opened TestFSWritableFile.  The wrapper
constructor in the source sets pos to 0.  Modelled from the spec: the
FSFileState constructor lives in the header fault_injection_fs.h, which
is not part of the sources here; per the spec both pos_at_last_flush and
pos_at_last_sync start at the -1 sentinel meaning never. -/
def initFileState (fname : String) : FSFileState :=
  { filename := fname, buffer := [], pos := 0,
    pos_at_last_flush := -1, pos_at_last_sync := -1 }

/-- DropUnsyncedData of FSFileState: empty the buffer, return OK. -/
def FSFileState.DropUnsyncedData (st : FSFileState) : IOStatus × FSFileState :=
  (IOStatus.ok, { st with buffer := [] })

/-- Association-list lookup, mirroring std::map find. -/
def alistFind? {α : Type} (k : String) : List (String × α) → Option α
  | [] => none
  | (k1, v) :: rest => if k1 = k then some v else alistFind? k rest

/-- Association-list insert-or-assign, mirroring std::map operator[]
assignment. -/
def alistInsert {α : Type} (k : String) (v : α) : List (String × α) → List (String × α)
  | [] => [(k, v)]
  | (k1, v1) :: rest =>
    if k1 = k then (k1, v) :: rest else (k1, v1) :: alistInsert k v rest

/-- Association-list erase, mirroring std::map erase by key. -/
def alistErase {α : Type} (k : String) : List (String × α) → List (String × α)
  | [] => []
  | (k1, v1) :: rest => if k1 = k then rest else (k1, v1) :: alistErase k rest

/-- Key-membership test on an association list. -/
def alistContains {α : Type} (k : String) (m : List (String × α)) : Bool :=
  (alistFind? k m).isSome

/-- Facade state of FaultInjectionTestFS: the active flag with its sticky
error, the two global maps, the set of open managed files and the
error-programming fields read by the operations modelled below.
DirNewFilesMap values are preserved-contents byte strings, with the empty
string as the kNewFileNoOverwrite sentinel. -/
structure Facade where
  filesystem_active : Bool
  error : IOStatus
  db_file_state : List (String × FSFileState)
  dir_to_new_files_since_last_sync : List (String × List (String × List Nat))
  open_managed_files : List String
  enable_write_error_injection : Bool
  write_error_one_in : Nat
  inject_for_all_file_types : Bool
  write_error_allowed_types : List FileType
  enable_metadata_write_error_injection : Bool
  metadata_write_error_one_in : Nat
  checksum_handoff_func_type : ChecksumType
  ingest_data_corruption_before_write : Bool
deriving DecidableEq, Repr

/-- GetError of the facade: the sticky error value. -/
def Facade.GetError (fs : Facade) : IOStatus := fs.error

/-- IsFilesystemActive of the facade. -/
def Facade.IsFilesystemActive (fs : Facade) : Bool := fs.filesystem_active

/-- WritableFileAppended notification: if the file is open-managed,
insert or assign its state in DbFileStateMap. -/
def WritableFileAppended (fs : Facade) (st : FSFileState) : Facade :=
  if fs.open_managed_files.contains st.filename then
    { fs with db_file_state := alistInsert st.filename st fs.db_file_state }
  else fs

/-- WritableFileSynced notification: same update as on append. -/
def WritableFileSynced (fs : Facade) (st : FSFileState) : Facade :=
  if fs.open_managed_files.contains st.filename then
    { fs with db_file_state := alistInsert st.filename st fs.db_file_state }
  else fs

/-- WritableFileClosed notification: if open-managed, record the final
state and remove the file from the open set. -/
def WritableFileClosed (fs : Facade) (st : FSFileState) : Facade :=
  if fs.open_managed_files.contains st.filename then
    { fs with db_file_state := alistInsert st.filename st fs.db_file_state,
              open_managed_files := fs.open_managed_files.erase st.filename }
  else fs

/-- InjectMetadataWriteError: no error when disabled, the rate is zero,
or the rand draw (an oracle here) does not fire; otherwise a plain
IOError. -/
def InjectMetadataWriteError (fs : Facade) (draw : Bool) : IOStatus :=
  if !fs.enable_metadata_write_error_injection ∨ fs.metadata_write_error_one_in = 0
      ∨ !draw then
    IOStatus.ok
  else IOStatus.ioError []

/-- InjectWriteError: when enabled with a nonzero rate, a file whose
parsed type (the file-name parser is external, so the parse result is an
oracle) is allowed — or any file when inject_for_all_file_types is set —
gets the sticky error if the rand draw fires. -/
def InjectWriteError (fs : Facade) (parsedType : Option FileType)
    (draw : Bool) : IOStatus :=
  if !fs.enable_write_error_injection ∨ fs.write_error_one_in = 0 then
    IOStatus.ok
  else
    let allowed :=
      if fs.inject_for_all_file_types then true
      else match parsedType with
        | some t => fs.write_error_allowed_types.contains t
        | none => false
    if allowed ∧ draw then fs.GetError else IOStatus.ok

/-- Conversion of a uint64 expression to a signed 64-bit value, for the
assignment of offset + num_to_sync to the ssize_t pos_at_last_sync field
in RangeSync. -/
def int64OfNat (n : Nat) : Int :=
  let m : Nat := n % 2 ^ 64
  if m < 2 ^ 63 then (m : Int) else (m : Int) - 2 ^ 64

/-- Oracle environment of one writable-file wrapper operation: the
direct-I/O mode of the underlying file, the statuses the underlying file
would return, the metadata-injection rand draws and the write-error
injection inputs. -/
structure WfEnv where
  direct : Bool
  targetAppendStatus : IOStatus
  targetCloseStatus : IOStatus
  metaPreDraw : Bool
  metaPostDraw : Bool
  parsedType : Option FileType
  writeDraw : Bool
deriving DecidableEq, Repr

/-- TestFSWritableFile::Append(data): gate on the active flag; in
direct-I/O mode pass through (discarding the underlying status); else
buffer the bytes, advance pos and notify the facade; finally return the
write-error injection status. -/
def wfAppend (fs : Facade) (st : FSFileState) (data : List Nat)
    (env : WfEnv) : IOStatus × FSFileState × Facade :=
  if !fs.IsFilesystemActive then (fs.GetError, st, fs)
  else if env.direct then
    (InjectWriteError fs env.parsedType env.writeDraw, st, fs)
  else
    let st1 := { st with buffer := st.buffer ++ data,
                         pos := st.pos + data.length }
    let fs1 := WritableFileAppended fs st1
    (InjectWriteError fs1 env.parsedType env.writeDraw, st1, fs1)

/-- TestFSWritableFile::Append(data, verification_info): after the gate,
return Corruption when the corrupt-before-write toggle is set; then
recompute the typed checksum and compare it against the caller-supplied
one, returning Corruption with both checksums in the message on a
mismatch; otherwise proceed exactly as the plain Append. -/
def wfAppendV (crc32c xxh32 : List Nat → Nat) (fs : Facade)
    (st : FSFileState) (data : List Nat) (callerChecksum : List Nat)
    (env : WfEnv) : IOStatus × FSFileState × Facade :=
  if !fs.IsFilesystemActive then (fs.GetError, st, fs)
  else if fs.ingest_data_corruption_before_write then
    (IOStatus.corruption (bytes "Data is corrupted!"), st, fs)
  else
    let checksum :=
      CalculateTypedChecksum crc32c xxh32 fs.checksum_handoff_func_type data
    if fs.checksum_handoff_func_type ≠ ChecksumType.kNoChecksum ∧
        checksum ≠ callerChecksum then
      (IOStatus.corruption
        (bytes "Data is corrupted! Origin data checksum: " ++ callerChecksum ++
          bytes "current data checksum: " ++ checksum), st, fs)
    else if env.direct then
      (InjectWriteError fs env.parsedType env.writeDraw, st, fs)
    else
      let st1 := { st with buffer := st.buffer ++ data,
                           pos := st.pos + data.length }
      let fs1 := WritableFileAppended fs st1
      (InjectWriteError fs1 env.parsedType env.writeDraw, st1, fs1)

/-- TestFSWritableFile::Flush: gate, then record the flush position. -/
def wfFlush (fs : Facade) (st : FSFileState) : IOStatus × FSFileState × Facade :=
  if !fs.IsFilesystemActive then (fs.GetError, st, fs)
  else (IOStatus.ok, { st with pos_at_last_flush := st.pos }, fs)

/-- TestFSWritableFile::Sync: gate; OK without touching anything in
direct-I/O mode; else append the whole buffer to the underlying file
(capturing its status), clear the buffer, ignore the underlying sync
error, set pos_at_last_sync to pos, notify the facade and return the
captured status. -/
def wfSync (fs : Facade) (st : FSFileState) (env : WfEnv) :
    IOStatus × FSFileState × Facade :=
  if !fs.IsFilesystemActive then (fs.GetError, st, fs)
  else if env.direct then (IOStatus.ok, st, fs)
  else
    let st1 := { st with buffer := [], pos_at_last_sync := st.pos }
    (env.targetAppendStatus, st1, WritableFileSynced fs st1)

/-- TestFSWritableFile::RangeSync(offset, nbytes): gate; compute the
uint64 sync limit and the buffer origin; return OK untouched when the
limit precedes the origin; else forward the covered buffer prefix to the
underlying file, drop it from the buffer, ignore the underlying range
sync, set pos_at_last_sync to offset + num_to_sync and notify the
facade. -/
def wfRangeSync (fs : Facade) (st : FSFileState) (offset nbytes : Nat)
    (env : WfEnv) : IOStatus × FSFileState × Facade :=
  if !fs.IsFilesystemActive then (fs.GetError, st, fs)
  else
    let sync_limit := (offset % 2 ^ 64 + nbytes % 2 ^ 64) % 2 ^ 64
    let buf_begin : Nat :=
      if st.pos_at_last_sync < 0 then 0 else st.pos_at_last_sync.toNat
    if sync_limit < buf_begin then (IOStatus.ok, st, fs)
    else
      let num_to_sync := min st.buffer.length (sync_limit - buf_begin)
      let st1 := { st with buffer := st.buffer.drop num_to_sync,
                           pos_at_last_sync := int64OfNat (offset % 2 ^ 64 + num_to_sync) }
      (env.targetAppendStatus, st1, WritableFileSynced fs st1)

/-- TestFSWritableFile::Close: gate; pre metadata injection; append the
remaining buffer to the underlying file unless direct-I/O; on success
clear the buffer, ignore the underlying sync error and close the
underlying file; on success notify the facade and run the post metadata
injection. -/
def wfClose (fs : Facade) (st : FSFileState) (env : WfEnv) :
    IOStatus × FSFileState × Facade :=
  if !fs.IsFilesystemActive then (fs.GetError, st, fs)
  else
    let pre := InjectMetadataWriteError fs env.metaPreDraw
    if pre ≠ IOStatus.ok then (pre, st, fs)
    else
      let io_s1 := if !env.direct then env.targetAppendStatus else IOStatus.ok
      if io_s1 = IOStatus.ok then
        let st1 := { st with buffer := [] }
        let io_s2 := env.targetCloseStatus
        if io_s2 = IOStatus.ok then
          let fs1 := WritableFileClosed fs st1
          let post := InjectMetadataWriteError fs1 env.metaPostDraw
          if post ≠ IOStatus.ok then (post, st1, fs1)
          else (io_s2, st1, fs1)
        else (io_s2, st1, fs)
      else (io_s1, st, fs)

/-- Wrapper operations of one writable file, for running sequences
(claim C1): the payloads are the op arguments, the oracle draws travel
in the per-step environment. -/
inductive WfOp where
  | append (data : List Nat)
  | flush
  | sync
  | rangeSync (offset nbytes : Nat)
  | close
deriving DecidableEq, Repr

/-- One step of the writable-file state machine, projecting the
file-state component of the corresponding wrapper operation. -/
def wfStep (fs : Facade) (env : WfEnv) (st : FSFileState) : WfOp → FSFileState
  | WfOp.append data => (wfAppend fs st data env).2.1
  | WfOp.flush => (wfFlush fs st).2.1
  | WfOp.sync => (wfSync fs st env).2.1
  | WfOp.rangeSync offset nbytes => (wfRangeSync fs st offset nbytes env).2.1
  | WfOp.close => (wfClose fs st env).2.1

/-- Run a sequence of wrapper operations on a file state; each step
carries its own facade snapshot and oracle environment. -/
def wfRun (st : FSFileState) : List (WfOp × Facade × WfEnv) → FSFileState
  | [] => st
  | (op, fs, env) :: rest => wfRun (wfStep fs env st op) rest

/-- Thread-local error context of the read-error injector (ErrorContext
in the source); the rand generator itself is replaced by oracle draws,
the saved callstack is not modelled. -/
structure ErrorContext where
  enable_error_injection : Bool
  one_in : Nat
  count : Nat
  message : String
deriving DecidableEq, Repr

/-- Random draws consumed by one call of the read-error injector: the
one-in-rate draw on the context generator, and the OneIn(8) and OneIn(7)
draws on the TLS generator. -/
structure InjEnv where
  rateDraw : Bool
  oneIn8 : Bool
  oneIn7 : Bool
deriving DecidableEq, Repr

/-- Increment of the last byte of a result slice (byte arithmetic mod
256); the source indexes size-1 and so presupposes a nonempty result,
here the empty slice is left unchanged. -/
def corruptLastByte : List Nat → List Nat
  | [] => []
  | l => l.dropLast ++ [((l.getLast? ).getD 0 + 1) % 256]

/-- Result bundle of one injector call: the returned status, the
possibly modified result slice, the fault_injected flag and the updated
thread-local context. -/
structure InjectOut where
  status : IOStatus
  result : List Nat
  faultInjected : Bool
  ctx : Option ErrorContext
deriving DecidableEq, Repr

/-- FaultInjectionTestFS::InjectThreadSpecificReadError.  With no
context, injection disabled or a zero rate the call is a no-op returning
OK.  When the rate draw fires: reset the message on a zero count, bump
the count when asked, then either return IOError (op other than
kMultiReadSingleReq), empty the result (OneIn 8), corrupt the last byte
of a scratch-backed result outside direct I/O (OneIn 7), or return
IOError. -/
def InjectThreadSpecificReadError (ctxOpt : Option ErrorContext)
    (env : InjEnv) (op : ErrorOperation) (result : List Nat) (direct : Bool)
    (scratchAliased : Bool) (need_count_increase : Bool) : InjectOut :=
  match ctxOpt with
  | none => ⟨IOStatus.ok, result, false, none⟩
  | some ctx =>
    if !ctx.enable_error_injection ∨ ctx.one_in = 0 then
      ⟨IOStatus.ok, result, false, some ctx⟩
    else if !env.rateDraw then ⟨IOStatus.ok, result, false, some ctx⟩
    else
      let msg0 := if ctx.count = 0 then "" else ctx.message
      let cnt := if need_count_increase then ctx.count + 1 else ctx.count
      if op ≠ ErrorOperation.kMultiReadSingleReq then
        ⟨IOStatus.ioError [], result, true,
          some { ctx with count := cnt, message := msg0 ++ "error; " }⟩
      else if env.oneIn8 then
        ⟨IOStatus.ok, [], true,
          some { ctx with count := cnt, message := msg0 ++ "inject empty result; " }⟩
      else if !direct ∧ env.oneIn7 ∧ scratchAliased then
        ⟨IOStatus.ok, corruptLastByte result, true,
          some { ctx with count := cnt, message := msg0 ++ "corrupt last byte; " }⟩
      else
        ⟨IOStatus.ioError [], result, true,
          some { ctx with count := cnt,
                          message := msg0 ++ "error result multiget single; " }⟩

/-- FaultInjectionTestFS::DoRead on a random-access file: gate; delegate
(the underlying status and result are oracles); on OK run the injector
with op kRead; on OK apply the random-read-error toggle (oracle for the
ShouldInjectRandomReadError draw, whose body lives in the header). -/
def doRandomAccessRead (fs : Facade) (ctxOpt : Option ErrorContext)
    (env : InjEnv) (underlying : IOStatus) (result : List Nat)
    (direct : Bool) (scratchAliased : Bool) (randomReadDraw : Bool) :
    IOStatus × List Nat × Option ErrorContext :=
  if !fs.IsFilesystemActive then (fs.GetError, result, ctxOpt)
  else
    if underlying = IOStatus.ok then
      let out := InjectThreadSpecificReadError ctxOpt env ErrorOperation.kRead
        result direct scratchAliased true
      if out.status = IOStatus.ok ∧ randomReadDraw then
        (IOStatus.ioError (bytes "Injected read error"), out.result, out.ctx)
      else (out.status, out.result, out.ctx)
    else
      if underlying = IOStatus.ok ∧ randomReadDraw then
        (IOStatus.ioError (bytes "Injected read error"), result, ctxOpt)
      else (underlying, result, ctxOpt)

/-- FaultInjectionTestFS::DoRead on a sequential file: delegate
unconditionally (note: no active-gate check in the source), then apply
the random-read-error toggle to an OK result. -/
def doSequentialRead (fs : Facade) (underlying : IOStatus)
    (randomReadDraw : Bool) : IOStatus :=
  let _ := fs
  if underlying = IOStatus.ok ∧ randomReadDraw then
    IOStatus.ioError (bytes "Injected seq read error")
  else underlying

/-- FaultInjectionTestFS::DoPositionedRead on a sequential file: same
shape as the sequential Read, with its own message. -/
def doPositionedRead (fs : Facade) (underlying : IOStatus)
    (randomReadDraw : Bool) : IOStatus :=
  let _ := fs
  if underlying = IOStatus.ok ∧ randomReadDraw then
    IOStatus.ioError (bytes "Injected seq positioned read error")
  else underlying

/-- One sub-request of a MultiRead: the status the delegate left on it,
its result slice, and whether the result aliases the caller scratch. -/
structure MRReq where
  status : IOStatus
  result : List Nat
  scratchAliased : Bool
deriving DecidableEq, Repr

/-- Record of one injector call made by DoMultiRead: its op tag and its
need_count_increase argument. -/
structure MRCall where
  op : ErrorOperation
  need_count_increase : Bool
deriving DecidableEq, Repr

/-- The per-sub-request loop of DoMultiRead: walk the requests in order,
stopping at the first whose status is not OK (the source breaks there);
each processed request receives one injector call with op
kMultiReadSingleReq and need_count_increase true, its flag OR-ed into
the accumulator.  Returns the updated requests, the OR of the injected
flags, the trace of injector calls and the final context. -/
def multiReadLoop (ctxOpt : Option ErrorContext) (direct : Bool) :
    List (MRReq × InjEnv) →
    List MRReq × Bool × List MRCall × Option ErrorContext
  | [] => ([], false, [], ctxOpt)
  | (r, e) :: rest =>
    if r.status ≠ IOStatus.ok then
      (r :: rest.map Prod.fst, false, [], ctxOpt)
    else
      let out := InjectThreadSpecificReadError ctxOpt e
        ErrorOperation.kMultiReadSingleReq r.result direct r.scratchAliased true
      let (rest1, inj, calls, ctx1) := multiReadLoop out.ctx direct rest
      (⟨out.status, out.result, r.scratchAliased⟩ :: rest1,
        out.faultInjected || inj,
        ⟨ErrorOperation.kMultiReadSingleReq, true⟩ :: calls, ctx1)

/-- Result bundle of DoMultiRead. -/
structure MultiReadOut where
  status : IOStatus
  reqs : List MRReq
  calls : List MRCall
  ctx : Option ErrorContext
deriving DecidableEq, Repr

/-- FaultInjectionTestFS::DoMultiRead: gate; delegate (overall status and
per-request outcomes are oracles); run the per-request loop; when the
overall status is OK make one trailing injector call with op kMultiRead
and need_count_increase the negation of the OR-ed injected flags; apply
the random-read-error toggle last. -/
def doMultiRead (fs : Facade) (ctxOpt : Option ErrorContext)
    (reqs : List (MRReq × InjEnv)) (underlying : IOStatus)
    (trailEnv : InjEnv) (direct : Bool) (randomReadDraw : Bool) : MultiReadOut :=
  if !fs.IsFilesystemActive then
    ⟨fs.GetError, reqs.map Prod.fst, [], ctxOpt⟩
  else
    let (reqs1, inj, calls, ctx1) := multiReadLoop ctxOpt direct reqs
    let (s, calls1, ctx2) :=
      if underlying = IOStatus.ok then
        let out := InjectThreadSpecificReadError ctx1 trailEnv
          ErrorOperation.kMultiRead [] direct false (!inj)
        (out.status, calls ++ [⟨ErrorOperation.kMultiRead, !inj⟩], out.ctx)
      else (underlying, calls, ctx1)
    if s = IOStatus.ok ∧ randomReadDraw then
      ⟨IOStatus.ioError (bytes "Injected read error"), reqs1, calls1, ctx2⟩
    else ⟨s, reqs1, calls1, ctx2⟩

/-- Path-separator test of find_last_of with the two characters of the
string literal used in TestFSGetDirName. -/
def isPathSep (c : Char) : Bool :=
  c = '/' || c = '\\'

/-- Index of the last character satisfying p, mirroring
std::string::find_last_of; none plays the role of npos. -/
def findLastOf (p : Char → Bool) : List Char → Option Nat
  | [] => none
  | c :: cs =>
    match findLastOf p cs with
    | some i => some (i + 1)
    | none => if p c then some 0 else none

/-- TestFSGetDirName: everything before the last path separator, or the
empty string when there is none. -/
def TestFSGetDirName (filename : List Char) : List Char :=
  match findLastOf isPathSep filename with
  | none => []
  | some i => filename.take i

/-- TestFSGetDirAndName: the directory part, and the substring starting
one past the directory's length. -/
def TestFSGetDirAndName (name : List Char) : List Char × List Char :=
  let dirname := TestFSGetDirName name
  (dirname, name.drop (dirname.length + 1))

/-- String-level wrapper of TestFSGetDirAndName used by the facade map
bookkeeping. -/
def strDirAndName (s : String) : String × String :=
  let p := TestFSGetDirAndName s.data
  (String.mk p.1, String.mk p.2)

/-- SyncDir notification.  Modelled from the spec: the body lives in the
missing header; per the spec it removes the directory's entry from
DirNewFilesMap entirely. -/
def SyncDir (fs : Facade) (dirname : String) : Facade :=
  { fs with dir_to_new_files_since_last_sync :=
      alistErase dirname fs.dir_to_new_files_since_last_sync }

/-- UntrackFile: drop the file from its directory's new-files list
(std::map operator[] creates the directory entry when absent), from
DbFileStateMap and from the open set. -/
def UntrackFile (fs : Facade) (f : String) : Facade :=
  let dn := strDirAndName f
  let dirList := (alistFind? dn.1 fs.dir_to_new_files_since_last_sync).getD []
  { fs with
    dir_to_new_files_since_last_sync :=
      alistInsert dn.1 (alistErase dn.2 dirList)
        fs.dir_to_new_files_since_last_sync,
    db_file_state := alistErase f fs.db_file_state,
    open_managed_files := fs.open_managed_files.erase f }

/-- ResetState: clear DbFileStateMap and DirNewFilesMap and re-activate.
The activation call SetFilesystemActiveNoLock(true) lives in the missing
header; modelled from the spec as setting the active flag. -/
def ResetState (fs : Facade) : Facade :=
  { fs with db_file_state := [],
            dir_to_new_files_since_last_sync := [],
            filesystem_active := true }

/-- Oracle environment of RenameFile: the metadata-injection draws, the
probes of the destination on the underlying file system and the status
of the underlying rename. -/
structure RenameEnv where
  metaPreDraw : Bool
  metaPostDraw : Bool
  destExists : Bool
  destSizeKnown : Bool
  destSize : Nat
  destContents : List Nat
  underlying : IOStatus
deriving DecidableEq, Repr

/-- DbFileStateMap update of a successful RenameFile(s, t): when the
source is tracked, assign its state to the destination key and erase the
source key; otherwise leave the map alone. -/
def renameDbUpdate (db : List (String × FSFileState)) (s t : String) :
    List (String × FSFileState) :=
  if alistContains s db then
    alistErase s (alistInsert t ((alistFind? s db).getD (initFileState s)) db)
  else db

/-- DirNewFilesMap update of a successful RenameFile(s, t): std::map
operator[] materialises the source directory's entry; when its list held
the source name, erase it and record the destination name with the
preserved contents. -/
def renameDirUpdate (m : List (String × List (String × List Nat)))
    (s t : String) (previous_contents : List Nat) :
    List (String × List (String × List Nat)) :=
  let sdn := strDirAndName s
  let tdn := strDirAndName t
  let sList := (alistFind? sdn.1 m).getD []
  if alistContains sdn.2 sList then
    let m1 := alistInsert sdn.1 (alistErase sdn.2 sList) m
    let tList := (alistFind? tdn.1 m1).getD []
    alistInsert tdn.1 (alistInsert tdn.2 previous_contents tList) m1
  else alistInsert sdn.1 sList m

/-- FaultInjectionTestFS::RenameFile(s, t): gate; pre metadata
injection; snapshot the destination contents when it exists and is
smaller than 1024 bytes (else keep the kNewFileNoOverwrite sentinel,
the empty string); delegate; on success apply the two map updates and
run the post metadata injection. -/
def RenameFile (fs : Facade) (s t : String) (env : RenameEnv) :
    IOStatus × Facade :=
  if !fs.IsFilesystemActive then (fs.GetError, fs)
  else
    let pre := InjectMetadataWriteError fs env.metaPreDraw
    if pre ≠ IOStatus.ok then (pre, fs)
    else
      let previous_contents : List Nat :=
        if env.destExists ∧ env.destSizeKnown ∧ env.destSize < 1024 then
          env.destContents
        else []
      if env.underlying = IOStatus.ok then
        let fs2 :=
          { fs with
              db_file_state := renameDbUpdate fs.db_file_state s t,
              dir_to_new_files_since_last_sync :=
                renameDirUpdate fs.dir_to_new_files_since_last_sync s t
                  previous_contents }
        let post := InjectMetadataWriteError fs2 env.metaPostDraw
        if post ≠ IOStatus.ok then (post, fs2)
        else (env.underlying, fs2)
      else (env.underlying, fs)

/-- FaultInjectionTestFS::DeleteFile: gate; pre metadata injection;
delegate; on success untrack the file and run the post injection. -/
def DeleteFile (fs : Facade) (f : String) (metaPreDraw metaPostDraw : Bool)
    (underlying : IOStatus) : IOStatus × Facade :=
  if !fs.IsFilesystemActive then (fs.GetError, fs)
  else
    let pre := InjectMetadataWriteError fs metaPreDraw
    if pre ≠ IOStatus.ok then (pre, fs)
    else if underlying = IOStatus.ok then
      let fs1 := UntrackFile fs f
      let post := InjectMetadataWriteError fs1 metaPostDraw
      if post ≠ IOStatus.ok then (post, fs1)
      else (underlying, fs1)
    else (underlying, fs)

/-- TestFSDirectory::Fsync: gate; pre metadata injection; notify SyncDir
on the wrapper's directory name; delegate; on success run the post
injection. -/
def dirFsync (fs : Facade) (dirname : String) (metaPreDraw metaPostDraw : Bool)
    (underlying : IOStatus) : IOStatus × Facade :=
  if !fs.IsFilesystemActive then (fs.GetError, fs)
  else
    let pre := InjectMetadataWriteError fs metaPreDraw
    if pre ≠ IOStatus.ok then (pre, fs)
    else
      let fs1 := SyncDir fs dirname
      if underlying = IOStatus.ok then
        let post := InjectMetadataWriteError fs1 metaPostDraw
        if post ≠ IOStatus.ok then (post, fs1)
        else (underlying, fs1)
      else (underlying, fs1)

/-- TestFSTrimDirname: drop the trailing run of slashes — everything
after the last character that is not a slash; a string of only slashes
(find_last_not_of returns npos) is returned unchanged. -/
def TestFSTrimDirname (str : List Char) : List Char :=
  match findLastOf (fun c => !(c == '/')) str with
  | none => str
  | some i => str.take (i + 1)

/-- FaultInjectionTestFS::NewDirectory: delegate to the underlying file
system (its status is an oracle) with no active-gate check; on a
non-OK delegate status return it with no wrapper, else wrap the
directory under its trimmed name and return OK.  The facade is not
consulted or changed. -/
def NewDirectory (fs : Facade) (name : String) (underlying : IOStatus) :
    IOStatus × Option String :=
  let _ := fs
  if underlying ≠ IOStatus.ok then (underlying, none)
  else (IOStatus.ok, some (String.mk (TestFSTrimDirname name.data)))

/-- Substring containment on byte strings, used to state that the
corruption message carries both checksums. -/
def containsSub (xs ys : List Nat) : Prop :=
  ∃ u v, ys = u ++ xs ++ v

/-- The exact mismatch message built by Append(data, verification_info):
the fixed prefix, the caller checksum, the fixed middle and the
recomputed checksum. -/
def handoffMismatchMsg (caller ck : List Nat) : List Nat :=
  bytes "Data is corrupted! Origin data checksum: " ++ caller ++
    bytes "current data checksum: " ++ ck

/-- The chain claimed as invariant 1 of the spec for the three position
counters of a file state. -/
def posChain (st : FSFileState) : Prop :=
  0 ≤ st.pos_at_last_sync ∧ st.pos_at_last_sync ≤ st.pos_at_last_flush ∧
    st.pos_at_last_flush ≤ st.pos

/-- Test whether a wrapper operation is not a RangeSync. -/
def notRangeSync : WfOp → Bool
  | WfOp.rangeSync _ _ => false
  | _ => true

/-- A facade with the active flag set, an IOError sticky error, empty
maps and all injection programming off: the baseline for concrete
runs. -/
def baseFacade : Facade :=
  { filesystem_active := true,
    error := IOStatus.ioError (bytes "sticky"),
    db_file_state := [],
    dir_to_new_files_since_last_sync := [],
    open_managed_files := [],
    enable_write_error_injection := false,
    write_error_one_in := 0,
    inject_for_all_file_types := false,
    write_error_allowed_types := [],
    enable_metadata_write_error_injection := false,
    metadata_write_error_one_in := 0,
    checksum_handoff_func_type := ChecksumType.kNoChecksum,
    ingest_data_corruption_before_write := false }

/-- The baseline facade with the active flag cleared, as left by a
deactivation carrying the sticky IOError. -/
def inactiveFacade : Facade :=
  { baseFacade with filesystem_active := false }

/-- Benign oracle environment for wrapper operations: buffered mode,
underlying calls succeed, no injection draw fires. -/
def benignWfEnv : WfEnv :=
  { direct := false, targetAppendStatus := IOStatus.ok,
    targetCloseStatus := IOStatus.ok, metaPreDraw := false,
    metaPostDraw := false, parsedType := none, writeDraw := false }

/-- Injector environment in which no random draw fires. -/
def benignInjEnv : InjEnv :=
  { rateDraw := false, oneIn8 := false, oneIn7 := false }

/-- Rename oracle environment: no injection draws, destination absent,
underlying rename succeeds. -/
def benignRenameEnv : RenameEnv :=
  { metaPreDraw := false, metaPostDraw := false, destExists := false,
    destSizeKnown := false, destSize := 0, destContents := [],
    underlying := IOStatus.ok }

/-- Facade for the rename counterexample: the destination file is
tracked in DbFileStateMap, the source is not. -/
def renameCexFacade : Facade :=
  { baseFacade with db_file_state := [("/a/t", initFileState "/a/t")] }

/-! Helper lemmas on association lists. -/

theorem alistFind?_insert {α : Type} (k k1 : String) (v : α)
    (m : List (String × α)) :
    alistFind? k (alistInsert k1 v m) =
      if k1 = k then some v else alistFind? k m := by
  induction m with
  | nil => simp [alistInsert, alistFind?]
  | cons hd tl ih =>
    obtain ⟨k2, v2⟩ := hd
    by_cases h2 : k2 = k1
    · subst h2
      by_cases h3 : k2 = k <;> simp [alistInsert, alistFind?, h3]
    · by_cases h3 : k2 = k
      · by_cases h4 : k1 = k
        · exact absurd (h3.trans h4.symm) h2
        · simp [alistInsert, alistFind?, h2, h3, h4, Ne.symm h4]
      · by_cases h4 : k1 = k
        · subst h4
          simp [alistInsert, alistFind?, h2, h3, ih]
        · simp [alistInsert, alistFind?, h2, h3, h4, ih]

theorem alistFind?_erase_other {α : Type} (k k1 : String)
    (m : List (String × α)) (h : k1 ≠ k) :
    alistFind? k (alistErase k1 m) = alistFind? k m := by
  induction m with
  | nil => simp [alistErase]
  | cons hd tl ih =>
    obtain ⟨k2, v2⟩ := hd
    by_cases h2 : k2 = k1
    · subst h2
      simp [alistErase, alistFind?, h]
    · by_cases h3 : k2 = k <;>
        simp [alistErase, alistFind?, h2, h3, ih, Ne.symm h]

theorem alistFind?_eq_none_of_not_mem {α : Type} (k : String)
    (m : List (String × α)) (h : k ∉ m.map Prod.fst) :
    alistFind? k m = none := by
  induction m with
  | nil => simp [alistFind?]
  | cons hd tl ih =>
    obtain ⟨k1, v1⟩ := hd
    rw [List.map_cons, List.mem_cons] at h
    push_neg at h
    rw [alistFind?, if_neg (Ne.symm h.1)]
    exact ih h.2

theorem alistContains_insert_self {α : Type} (k : String) (v : α)
    (m : List (String × α)) : alistContains k (alistInsert k v m) = true := by
  simp [alistContains, alistFind?_insert]

theorem alistContains_insert_other {α : Type} (k k1 : String) (v : α)
    (m : List (String × α)) (h : k1 ≠ k) :
    alistContains k (alistInsert k1 v m) = alistContains k m := by
  simp [alistContains, alistFind?_insert, h]

theorem alistContains_erase_other {α : Type} (k k1 : String)
    (m : List (String × α)) (h : k1 ≠ k) :
    alistContains k (alistErase k1 m) = alistContains k m := by
  simp [alistContains, alistFind?_erase_other k k1 m h]

theorem alistContains_erase_self {α : Type} (k : String)
    (m : List (String × α)) (h : (m.map Prod.fst).Nodup) :
    alistContains k (alistErase k m) = false := by
  induction m with
  | nil => simp [alistErase, alistContains, alistFind?]
  | cons hd tl ih =>
    obtain ⟨k1, v1⟩ := hd
    rw [List.map_cons, List.nodup_cons] at h
    by_cases h2 : k1 = k
    · subst h2
      rw [alistErase, if_pos rfl]
      simp [alistContains, alistFind?_eq_none_of_not_mem k1 tl h.1]
    · rw [alistErase, if_neg h2]
      simp only [alistContains, alistFind?, if_neg h2]
      exact ih h.2

theorem mem_map_fst_alistInsert {α : Type} (a k : String) (v : α)
    (m : List (String × α)) :
    a ∈ (alistInsert k v m).map Prod.fst ↔ a = k ∨ a ∈ m.map Prod.fst := by
  induction m with
  | nil => simp [alistInsert]
  | cons hd tl ih =>
    obtain ⟨k1, v1⟩ := hd
    by_cases h : k1 = k
    · subst h
      rw [alistInsert, if_pos rfl]
      simp only [List.map_cons, List.mem_cons]
      tauto
    · rw [alistInsert, if_neg h]
      simp only [List.map_cons, List.mem_cons, ih]
      tauto

theorem nodup_keys_alistInsert {α : Type} (k : String) (v : α)
    (m : List (String × α)) (h : (m.map Prod.fst).Nodup) :
    ((alistInsert k v m).map Prod.fst).Nodup := by
  induction m with
  | nil => simp [alistInsert]
  | cons hd tl ih =>
    obtain ⟨k1, v1⟩ := hd
    rw [List.map_cons, List.nodup_cons] at h
    by_cases h2 : k1 = k
    · subst h2
      rw [alistInsert, if_pos rfl, List.map_cons, List.nodup_cons]
      exact h
    · rw [alistInsert, if_neg h2, List.map_cons, List.nodup_cons]
      refine ⟨?_, ih h.2⟩
      intro hmem
      rcases (mem_map_fst_alistInsert k1 k v tl).mp hmem with h3 | h3
      · exact h2 h3
      · exact h.1 h3

/-- C8: ResetState is idempotent — two consecutive calls leave the
facade in the same state — and each call clears DbFileStateMap and
DirNewFilesMap and sets the active flag to true. -/
theorem resetState_idempotent (fs : Facade) :
    ResetState (ResetState fs) = ResetState fs ∧
    (ResetState fs).db_file_state = [] ∧
    (ResetState fs).dir_to_new_files_since_last_sync = [] ∧
    (ResetState fs).filesystem_active = true :=
  ⟨rfl, rfl, rfl, rfl⟩

/-- C5: on an active non-direct-I/O writable file, Sync returns the
status captured from the underlying append, clears the buffer, sets
pos_at_last_sync to pos (leaving pos and pos_at_last_flush as they
were), and hands the updated state to the WritableFileSynced
notification; in particular when it returns OK the buffer is empty and
pos_at_last_sync equals pos. -/
theorem sync_spec (fs : Facade) (st : FSFileState) (env : WfEnv)
    (hact : fs.filesystem_active = true) (hdir : env.direct = false) :
    (wfSync fs st env).1 = env.targetAppendStatus ∧
    (wfSync fs st env).2.1 =
      { st with buffer := [], pos_at_last_sync := st.pos } ∧
    (wfSync fs st env).2.2 =
      WritableFileSynced fs { st with buffer := [], pos_at_last_sync := st.pos } ∧
    ((wfSync fs st env).1 = IOStatus.ok →
      (wfSync fs st env).2.1.buffer = [] ∧
      (wfSync fs st env).2.1.pos_at_last_sync = (wfSync fs st env).2.1.pos) := by
  simp [wfSync, Facade.IsFilesystemActive, hact, hdir]

/-- Witness for sync_spec at a concrete input. -/
theorem sync_spec_witness :
    baseFacade.filesystem_active = true ∧ benignWfEnv.direct = false ∧
    (wfSync baseFacade (initFileState "f") benignWfEnv).1 =
      benignWfEnv.targetAppendStatus :=
  ⟨rfl, rfl, (sync_spec baseFacade (initFileState "f") benignWfEnv rfl rfl).1⟩

/-- C9: ResetState leaves OpenManagedFiles unchanged, and a file whose
name is in the open set is re-inserted into the freshly cleared
DbFileStateMap by a subsequent buffered Append, Sync or (cleanly
completing) Close on its wrapper. -/
theorem resetState_preserves_open_managed (fs : Facade) (st : FSFileState)
    (envA envS envC : WfEnv) (data : List Nat)
    (hopen : st.filename ∈ fs.open_managed_files)
    (hdirA : envA.direct = false) (hdirS : envS.direct = false)
    (hdirC : envC.direct = false) (hpre : envC.metaPreDraw = false)
    (hpost : envC.metaPostDraw = false)
    (happ : envC.targetAppendStatus = IOStatus.ok)
    (hclo : envC.targetCloseStatus = IOStatus.ok) :
    (ResetState fs).open_managed_files = fs.open_managed_files ∧
    alistContains st.filename
      ((wfAppend (ResetState fs) st data envA).2.2).db_file_state = true ∧
    alistContains st.filename
      ((wfSync (ResetState fs) st envS).2.2).db_file_state = true ∧
    alistContains st.filename
      ((wfClose (ResetState fs) st envC).2.2).db_file_state = true := by
  refine ⟨rfl, ?_, ?_, ?_⟩
  · simp [wfAppend, Facade.IsFilesystemActive, ResetState, hdirA,
      WritableFileAppended, hopen, alistContains_insert_self]
  · simp [wfSync, Facade.IsFilesystemActive, ResetState, hdirS,
      WritableFileSynced, hopen, alistContains_insert_self]
  · simp [wfClose, Facade.IsFilesystemActive, ResetState, hdirC, hpre, hpost,
      happ, hclo, InjectMetadataWriteError, WritableFileClosed, hopen,
      alistContains_insert_self]

/-- Witness for resetState_preserves_open_managed at a concrete
input. -/
theorem resetState_preserves_open_managed_witness :
    (initFileState "f").filename ∈
      ({ baseFacade with open_managed_files := ["f"] } :
        Facade).open_managed_files ∧
    alistContains (initFileState "f").filename
      ((wfSync (ResetState { baseFacade with open_managed_files := ["f"] })
        (initFileState "f") benignWfEnv).2.2).db_file_state = true :=
  ⟨by decide, (resetState_preserves_open_managed
    { baseFacade with open_managed_files := ["f"] } (initFileState "f")
    benignWfEnv benignWfEnv benignWfEnv [] (by decide) rfl rfl rfl rfl rfl rfl
    rfl).2.2.1⟩

/-- C2 counterexample: with the active flag cleared and an IOError
sticky error installed, a SequentialFile Read (and PositionedRead)
whose delegate succeeds returns OK — the result of the delegated read —
and not the sticky error, and NewDirectory likewise delegates and
returns OK, so the claim that every intercepted operation (including
SequentialFile.Read and PositionedRead) checks the gate first is false
at this input. -/
theorem seqRead_ignores_gate_cex :
    inactiveFacade.filesystem_active = false ∧
    doSequentialRead inactiveFacade IOStatus.ok false = IOStatus.ok ∧
    doPositionedRead inactiveFacade IOStatus.ok false = IOStatus.ok ∧
    (NewDirectory inactiveFacade "/db" IOStatus.ok).1 = IOStatus.ok ∧
    inactiveFacade.GetError ≠ IOStatus.ok := by
  refine ⟨rfl, rfl, rfl, rfl, ?_⟩
  simp [inactiveFacade, baseFacade, Facade.GetError]

/-- C2 amended: every modelled status-returning intercepted operation
except SequentialFile Read, SequentialFile PositionedRead and
NewDirectory checks the active gate first and, when the facade is
inactive, returns the sticky error without consulting the underlying
file or changing any state; those three delegate with no gate — the two
sequential reads only apply the random-read-error toggle to an OK
delegate status, and NewDirectory passes the delegate failure through
or wraps the directory under its trimmed name and returns OK. -/
theorem inactive_gate_short_circuits (fs : Facade) (st : FSFileState)
    (data caller result : List Nat) (env : WfEnv) (offset nbytes : Nat)
    (ctxOpt : Option ErrorContext) (ienv trailEnv : InjEnv) (u : IOStatus)
    (direct scratchAliased rrd mPre mPost : Bool)
    (reqs : List (MRReq × InjEnv)) (s t f dirname dname : String)
    (renv : RenameEnv) (crc32c xxh32 : List Nat → Nat)
    (h : fs.filesystem_active = false) :
    wfAppend fs st data env = (fs.GetError, st, fs) ∧
    wfAppendV crc32c xxh32 fs st data caller env = (fs.GetError, st, fs) ∧
    wfFlush fs st = (fs.GetError, st, fs) ∧
    wfSync fs st env = (fs.GetError, st, fs) ∧
    wfRangeSync fs st offset nbytes env = (fs.GetError, st, fs) ∧
    wfClose fs st env = (fs.GetError, st, fs) ∧
    doRandomAccessRead fs ctxOpt ienv u result direct scratchAliased rrd =
      (fs.GetError, result, ctxOpt) ∧
    doMultiRead fs ctxOpt reqs u trailEnv direct rrd =
      ⟨fs.GetError, reqs.map Prod.fst, [], ctxOpt⟩ ∧
    RenameFile fs s t renv = (fs.GetError, fs) ∧
    DeleteFile fs f mPre mPost u = (fs.GetError, fs) ∧
    dirFsync fs dirname mPre mPost u = (fs.GetError, fs) ∧
    doSequentialRead fs u rrd =
      (if u = IOStatus.ok ∧ rrd = true then
        IOStatus.ioError (bytes "Injected seq read error")
      else u) ∧
    doPositionedRead fs u rrd =
      (if u = IOStatus.ok ∧ rrd = true then
        IOStatus.ioError (bytes "Injected seq positioned read error")
      else u) ∧
    NewDirectory fs dname u =
      (if u ≠ IOStatus.ok then (u, none)
       else (IOStatus.ok, some (String.mk (TestFSTrimDirname dname.data)))) := by
  refine ⟨?_, ?_, ?_, ?_, ?_, ?_, ?_, ?_, ?_, ?_, ?_, ?_, ?_, ?_⟩ <;>
    simp [wfAppend, wfAppendV, wfFlush, wfSync, wfRangeSync, wfClose,
      doRandomAccessRead, doMultiRead, RenameFile, DeleteFile, dirFsync,
      doSequentialRead, doPositionedRead, NewDirectory,
      Facade.IsFilesystemActive, h]

/-- Witness for inactive_gate_short_circuits at a concrete input. -/
theorem inactive_gate_short_circuits_witness :
    inactiveFacade.filesystem_active = false ∧
    wfFlush inactiveFacade (initFileState "f") =
      (inactiveFacade.GetError, initFileState "f", inactiveFacade) :=
  ⟨rfl, (inactive_gate_short_circuits inactiveFacade (initFileState "f")
    [] [] [] benignWfEnv 0 0 none benignInjEnv benignInjEnv IOStatus.ok
    false false false false false [] "s" "t" "f" "d" "/db" benignRenameEnv
    (fun _ => 0) (fun _ => 0) rfl).2.2.1⟩

/-- C10: path-split round trip.  When the last path separator of p is
the character slash (found at index i by find_last_of), the pair
(dir, name) returned by TestFSGetDirAndName satisfies
dir ++ slash ++ name = p — the reconstruction used by
DeleteFilesCreatedAfterLastDirSync on the DirNewFilesMap keys. -/
theorem testFSGetDirAndName_round_trip (p : List Char) (i : Nat)
    (hfind : findLastOf isPathSep p = some i)
    (hslash : p.get? i = some '/') :
    (TestFSGetDirAndName p).1 ++ '/' :: (TestFSGetDirAndName p).2 = p := by
  rw [List.get?_eq_some] at hslash
  obtain ⟨hi, hget⟩ := hslash
  have hname : TestFSGetDirName p = p.take i := by
    rw [TestFSGetDirName, hfind]
  have hlen : (TestFSGetDirName p).length = i := by
    rw [hname, List.length_take]
    exact Nat.min_eq_left (Nat.le_of_lt hi)
  have hpair1 : (TestFSGetDirAndName p).1 = p.take i := by
    rw [TestFSGetDirAndName, hname]
  have hpair2 : (TestFSGetDirAndName p).2 = p.drop (i + 1) := by
    rw [TestFSGetDirAndName]
    simp only []
    rw [hlen]
  rw [hpair1, hpair2]
  have hdrop : p.drop i = '/' :: p.drop (i + 1) := by
    have hg : p[i] = '/' := hget
    rw [List.drop_eq_getElem_cons hi, hg]
  calc p.take i ++ '/' :: p.drop (i + 1)
      = p.take i ++ p.drop i := by rw [hdrop]
    _ = p := List.take_append_drop i p

/-- Witness for testFSGetDirAndName_round_trip on a concrete path. -/
theorem testFSGetDirAndName_round_trip_witness :
    findLastOf isPathSep "/db/a.log".data = some 3 ∧
    "/db/a.log".data.get? 3 = some '/' ∧
    (TestFSGetDirAndName "/db/a.log".data).1 ++
      '/' :: (TestFSGetDirAndName "/db/a.log".data).2 = "/db/a.log".data :=
  ⟨by decide, by decide,
    testFSGetDirAndName_round_trip "/db/a.log".data 3 (by decide) (by decide)⟩

/-- C7: behaviour of the thread-local read-error injector.  With no
context the call returns OK untouched with fault_injected false; same
when injection is disabled or the rate is zero, or when the rate draw
does not fire.  When the draw fires: for an op other than
kMultiReadSingleReq the call returns IOError; for kMultiReadSingleReq a
1-in-8 draw empties the result and returns OK, otherwise a 1-in-7 draw
on a non-direct-I/O scratch-backed result increments the result's last
byte (mod 256) in place and returns OK, and every remaining case
returns IOError.  fault_injected is set exactly when the draw fired. -/
theorem injectReadError_spec (ctx : ErrorContext) (env : InjEnv)
    (op : ErrorOperation) (result : List Nat)
    (direct scratchAliased need : Bool) :
    InjectThreadSpecificReadError none env op result direct scratchAliased
      need = ⟨IOStatus.ok, result, false, none⟩ ∧
    ((ctx.enable_error_injection = false ∨ ctx.one_in = 0) →
      InjectThreadSpecificReadError (some ctx) env op result direct
        scratchAliased need = ⟨IOStatus.ok, result, false, some ctx⟩) ∧
    (ctx.enable_error_injection = true → ctx.one_in ≠ 0 →
      env.rateDraw = false →
      InjectThreadSpecificReadError (some ctx) env op result direct
        scratchAliased need = ⟨IOStatus.ok, result, false, some ctx⟩) ∧
    (ctx.enable_error_injection = true → ctx.one_in ≠ 0 →
      env.rateDraw = true →
      ((op ≠ ErrorOperation.kMultiReadSingleReq →
        (InjectThreadSpecificReadError (some ctx) env op result direct
          scratchAliased need).status = IOStatus.ioError [] ∧
        (InjectThreadSpecificReadError (some ctx) env op result direct
          scratchAliased need).result = result ∧
        (InjectThreadSpecificReadError (some ctx) env op result direct
          scratchAliased need).faultInjected = true) ∧
      (op = ErrorOperation.kMultiReadSingleReq →
        (env.oneIn8 = true →
          (InjectThreadSpecificReadError (some ctx) env op result direct
            scratchAliased need).status = IOStatus.ok ∧
          (InjectThreadSpecificReadError (some ctx) env op result direct
            scratchAliased need).result = [] ∧
          (InjectThreadSpecificReadError (some ctx) env op result direct
            scratchAliased need).faultInjected = true) ∧
        (env.oneIn8 = false → direct = false → env.oneIn7 = true →
          scratchAliased = true →
          (InjectThreadSpecificReadError (some ctx) env op result direct
            scratchAliased need).status = IOStatus.ok ∧
          (InjectThreadSpecificReadError (some ctx) env op result direct
            scratchAliased need).result = corruptLastByte result ∧
          (InjectThreadSpecificReadError (some ctx) env op result direct
            scratchAliased need).faultInjected = true ∧
          (result ≠ [] →
            (InjectThreadSpecificReadError (some ctx) env op result direct
              scratchAliased need).result =
              result.dropLast ++ [((result.getLast? ).getD 0 + 1) % 256])) ∧
        (env.oneIn8 = false →
          ¬(direct = false ∧ env.oneIn7 = true ∧ scratchAliased = true) →
          (InjectThreadSpecificReadError (some ctx) env op result direct
            scratchAliased need).status = IOStatus.ioError [] ∧
          (InjectThreadSpecificReadError (some ctx) env op result direct
            scratchAliased need).result = result ∧
          (InjectThreadSpecificReadError (some ctx) env op result direct
            scratchAliased need).faultInjected = true)))) := by
  refine ⟨rfl, ?_, ?_, ?_⟩
  · intro h
    rcases h with h | h <;> simp [InjectThreadSpecificReadError, h]
  · intro he ho hr
    simp [InjectThreadSpecificReadError, he, ho, hr]
  · intro he ho hr
    constructor
    · intro hop
      simp [InjectThreadSpecificReadError, he, ho, hr, hop]
    · intro hop
      subst hop
      refine ⟨?_, ?_, ?_⟩
      · intro h8
        simp [InjectThreadSpecificReadError, he, ho, hr, h8]
      · intro h8 hd h7 hsa
        refine ⟨?_, ?_, ?_, ?_⟩ <;>
          simp [InjectThreadSpecificReadError, he, ho, hr, h8, hd, h7, hsa]
        intro hres
        obtain ⟨a, l, rfl⟩ := List.exists_cons_of_ne_nil hres
        simp [corruptLastByte]
      · intro h8 hcase
        simp [InjectThreadSpecificReadError, he, ho, hr, h8, hcase]

/-- Witness for injectReadError_spec: the last-byte corruption branch at
a concrete input. -/
theorem injectReadError_spec_witness :
    (InjectThreadSpecificReadError (some ⟨true, 3, 0, ""⟩)
      ⟨true, false, true⟩ ErrorOperation.kMultiReadSingleReq [10, 20] false
      true true).status = IOStatus.ok ∧
    (InjectThreadSpecificReadError (some ⟨true, 3, 0, ""⟩)
      ⟨true, false, true⟩ ErrorOperation.kMultiReadSingleReq [10, 20] false
      true true).result = corruptLastByte [10, 20] := by
  have h := injectReadError_spec ⟨true, 3, 0, ""⟩ ⟨true, false, true⟩
    ErrorOperation.kMultiReadSingleReq [10, 20] false true true
  have h2 := ((h.2.2.2 rfl (by decide) rfl).2 rfl).2.1 rfl rfl rfl rfl
  exact ⟨h2.1, h2.2.1⟩

/-! Step lemmas for the position-counter invariants of claim C1. -/

theorem wfStep_pos_flush (fs : Facade) (env : WfEnv) (st : FSFileState)
    (op : WfOp) (h0 : 0 ≤ st.pos) (hf : st.pos_at_last_flush ≤ st.pos) :
    0 ≤ (wfStep fs env st op).pos ∧
    (wfStep fs env st op).pos_at_last_flush ≤ (wfStep fs env st op).pos := by
  cases op with
  | append data =>
    simp only [wfStep, wfAppend]
    split_ifs <;> simp_all <;> omega
  | flush =>
    simp only [wfStep, wfFlush]
    split_ifs <;> simp_all
  | sync =>
    simp only [wfStep, wfSync]
    split_ifs <;> simp_all
  | rangeSync offset nbytes =>
    simp only [wfStep, wfRangeSync]
    split_ifs <;> simp_all
  | close =>
    simp only [wfStep, wfClose]
    split_ifs <;> simp_all

theorem wfStep_sync_le (fs : Facade) (env : WfEnv) (st : FSFileState)
    (op : WfOp) (hop : notRangeSync op = true)
    (hs : st.pos_at_last_sync ≤ st.pos) :
    (wfStep fs env st op).pos_at_last_sync ≤ (wfStep fs env st op).pos := by
  cases op with
  | append data =>
    simp only [wfStep, wfAppend]
    split_ifs <;> simp_all <;> omega
  | flush =>
    simp only [wfStep, wfFlush]
    split_ifs <;> simp_all
  | sync =>
    simp only [wfStep, wfSync]
    split_ifs <;> simp_all
  | rangeSync offset nbytes => simp [notRangeSync] at hop
  | close =>
    simp only [wfStep, wfClose]
    split_ifs <;> simp_all

theorem wfRun_pos_flush (ops : List (WfOp × Facade × WfEnv))
    (st : FSFileState) (h0 : 0 ≤ st.pos)
    (hf : st.pos_at_last_flush ≤ st.pos) :
    0 ≤ (wfRun st ops).pos ∧
    (wfRun st ops).pos_at_last_flush ≤ (wfRun st ops).pos := by
  induction ops generalizing st with
  | nil => exact ⟨h0, hf⟩
  | cons hd tl ih =>
    obtain ⟨op, fs, env⟩ := hd
    have h := wfStep_pos_flush fs env st op h0 hf
    exact ih (wfStep fs env st op) h.1 h.2

theorem wfRun_sync_le (ops : List (WfOp × Facade × WfEnv))
    (st : FSFileState)
    (hall : ops.all (fun x => notRangeSync x.1) = true)
    (hs : st.pos_at_last_sync ≤ st.pos) :
    (wfRun st ops).pos_at_last_sync ≤ (wfRun st ops).pos := by
  induction ops generalizing st with
  | nil => exact hs
  | cons hd tl ih =>
    obtain ⟨op, fs, env⟩ := hd
    rw [List.all_cons, Bool.and_eq_true] at hall
    exact ih (wfStep fs env st op) hall.2
      (wfStep_sync_le fs env st op hall.1 hs)

/-- C1 counterexample: on an active facade, the sequence Append(4
bytes); Flush; Sync; Append(2 bytes); RangeSync(4, 100) ends with
pos = 6, pos_at_last_flush = 4 and pos_at_last_sync = 6 — RangeSync
advanced pos_at_last_sync past pos_at_last_flush, so the claimed chain
0 ≤ pos_at_last_sync ≤ pos_at_last_flush ≤ pos fails after this
sequence (and already a single Append leaves the counters at the -1
sentinel, violating 0 ≤ pos_at_last_sync). -/
theorem posChain_counterexample :
    ¬ posChain
      (wfRun (initFileState "f")
        [(WfOp.append [1, 2, 3, 4], baseFacade, benignWfEnv),
         (WfOp.flush, baseFacade, benignWfEnv),
         (WfOp.sync, baseFacade, benignWfEnv),
         (WfOp.append [5, 6], baseFacade, benignWfEnv),
         (WfOp.rangeSync 4 100, baseFacade, benignWfEnv)]) := by
  intro h
  have h2 := h.2.1
  have hsync : (wfRun (initFileState "f")
      [(WfOp.append [1, 2, 3, 4], baseFacade, benignWfEnv),
       (WfOp.flush, baseFacade, benignWfEnv),
       (WfOp.sync, baseFacade, benignWfEnv),
       (WfOp.append [5, 6], baseFacade, benignWfEnv),
       (WfOp.rangeSync 4 100, baseFacade, benignWfEnv)]).pos_at_last_sync = 6 := by
    decide
  have hflush : (wfRun (initFileState "f")
      [(WfOp.append [1, 2, 3, 4], baseFacade, benignWfEnv),
       (WfOp.flush, baseFacade, benignWfEnv),
       (WfOp.sync, baseFacade, benignWfEnv),
       (WfOp.append [5, 6], baseFacade, benignWfEnv),
       (WfOp.rangeSync 4 100, baseFacade, benignWfEnv)]).pos_at_last_flush = 4 := by
    decide
  omega

/-- C1 amended: after any sequence of wrapper operations (Append, Flush,
Sync, RangeSync, Close) from a fresh file state, 0 ≤ pos and
pos_at_last_flush ≤ pos; the counters start at the -1 sentinel, so
0 ≤ pos_at_last_sync fails until a sync, Sync itself makes
pos_at_last_sync exceed pos_at_last_flush, and RangeSync can push
pos_at_last_sync beyond pos; for sequences without RangeSync,
pos_at_last_sync ≤ pos also holds. -/
theorem posChain_amended (fname : String)
    (ops : List (WfOp × Facade × WfEnv)) :
    0 ≤ (wfRun (initFileState fname) ops).pos ∧
    (wfRun (initFileState fname) ops).pos_at_last_flush ≤
      (wfRun (initFileState fname) ops).pos ∧
    (ops.all (fun x => notRangeSync x.1) = true →
      (wfRun (initFileState fname) ops).pos_at_last_sync ≤
        (wfRun (initFileState fname) ops).pos) := by
  have h := wfRun_pos_flush ops (initFileState fname) (by simp [initFileState])
    (by simp [initFileState])
  refine ⟨h.1, h.2, ?_⟩
  intro hall
  exact wfRun_sync_le ops (initFileState fname) hall (by simp [initFileState])

/-- Witness for posChain_amended on a concrete operation sequence. -/
theorem posChain_amended_witness :
    ([(WfOp.append [1], baseFacade, benignWfEnv),
      (WfOp.flush, baseFacade, benignWfEnv),
      (WfOp.sync, baseFacade, benignWfEnv)].all
        (fun x => notRangeSync x.1) = true) ∧
    (wfRun (initFileState "f")
      [(WfOp.append [1], baseFacade, benignWfEnv),
       (WfOp.flush, baseFacade, benignWfEnv),
       (WfOp.sync, baseFacade, benignWfEnv)]).pos_at_last_sync ≤
      (wfRun (initFileState "f")
        [(WfOp.append [1], baseFacade, benignWfEnv),
         (WfOp.flush, baseFacade, benignWfEnv),
         (WfOp.sync, baseFacade, benignWfEnv)]).pos :=
  ⟨by decide, (posChain_amended "f"
    [(WfOp.append [1], baseFacade, benignWfEnv),
     (WfOp.flush, baseFacade, benignWfEnv),
     (WfOp.sync, baseFacade, benignWfEnv)]).2.2 (by decide)⟩

/-- C3: Append with verification on an active, non-direct-I/O file with
checksum handoff enabled and corrupt-before-write off.  If the caller
checksum equals the recomputed one, the bytes are buffered, pos
advances, the facade is notified and the returned status is exactly the
write-error injection result; if it differs, the call returns Corruption
whose message contains both checksums and leaves the file state and the
facade untouched. -/
theorem appendV_checksum_spec (crc32c xxh32 : List Nat → Nat) (fs : Facade)
    (st : FSFileState) (data caller : List Nat) (env : WfEnv)
    (hact : fs.filesystem_active = true)
    (hcorr : fs.ingest_data_corruption_before_write = false)
    (hdir : env.direct = false)
    (htype : fs.checksum_handoff_func_type ≠ ChecksumType.kNoChecksum) :
    (caller = CalculateTypedChecksum crc32c xxh32
        fs.checksum_handoff_func_type data →
      wfAppendV crc32c xxh32 fs st data caller env =
        (InjectWriteError
          (WritableFileAppended fs
            { st with buffer := st.buffer ++ data,
                      pos := st.pos + data.length })
          env.parsedType env.writeDraw,
         { st with buffer := st.buffer ++ data,
                   pos := st.pos + data.length },
         WritableFileAppended fs
           { st with buffer := st.buffer ++ data,
                     pos := st.pos + data.length })) ∧
    (caller ≠ CalculateTypedChecksum crc32c xxh32
        fs.checksum_handoff_func_type data →
      wfAppendV crc32c xxh32 fs st data caller env =
        (IOStatus.corruption
          (handoffMismatchMsg caller
            (CalculateTypedChecksum crc32c xxh32
              fs.checksum_handoff_func_type data)), st, fs) ∧
      containsSub caller
        (handoffMismatchMsg caller
          (CalculateTypedChecksum crc32c xxh32
            fs.checksum_handoff_func_type data)) ∧
      containsSub
        (CalculateTypedChecksum crc32c xxh32
          fs.checksum_handoff_func_type data)
        (handoffMismatchMsg caller
          (CalculateTypedChecksum crc32c xxh32
            fs.checksum_handoff_func_type data))) := by
  constructor
  · intro heq
    simp [wfAppendV, Facade.IsFilesystemActive, hact, hcorr, hdir, heq]
  · intro hne
    refine ⟨?_, ?_, ?_⟩
    · simp [wfAppendV, Facade.IsFilesystemActive, hact, hcorr, htype,
        handoffMismatchMsg, Ne.symm hne]
    · exact ⟨bytes "Data is corrupted! Origin data checksum: ",
        bytes "current data checksum: " ++ CalculateTypedChecksum crc32c
          xxh32 fs.checksum_handoff_func_type data,
        by simp [handoffMismatchMsg]⟩
    · exact ⟨bytes "Data is corrupted! Origin data checksum: " ++ caller ++
        bytes "current data checksum: ", [],
        by simp [handoffMismatchMsg]⟩

/-- Witness for appendV_checksum_spec: the matching-checksum branch at a
concrete input. -/
theorem appendV_checksum_spec_witness :
    ({ baseFacade with checksum_handoff_func_type := ChecksumType.kCRC32c } :
        Facade).filesystem_active = true ∧
    [5, 0, 0, 0] = CalculateTypedChecksum (fun _ => 5) (fun _ => 9)
      ({ baseFacade with checksum_handoff_func_type := ChecksumType.kCRC32c } :
        Facade).checksum_handoff_func_type [1, 2] ∧
    wfAppendV (fun _ => 5) (fun _ => 9)
      { baseFacade with checksum_handoff_func_type := ChecksumType.kCRC32c }
      (initFileState "f") [1, 2] [5, 0, 0, 0] benignWfEnv =
      (InjectWriteError
        (WritableFileAppended
          { baseFacade with checksum_handoff_func_type := ChecksumType.kCRC32c }
          { initFileState "f" with
              buffer := (initFileState "f").buffer ++ [1, 2],
              pos := (initFileState "f").pos + ([1, 2] : List Nat).length })
        benignWfEnv.parsedType benignWfEnv.writeDraw,
       { initFileState "f" with
           buffer := (initFileState "f").buffer ++ [1, 2],
           pos := (initFileState "f").pos + ([1, 2] : List Nat).length },
       WritableFileAppended
         { baseFacade with checksum_handoff_func_type := ChecksumType.kCRC32c }
         { initFileState "f" with
             buffer := (initFileState "f").buffer ++ [1, 2],
             pos := (initFileState "f").pos + ([1, 2] : List Nat).length }) :=
  ⟨rfl, by decide,
    (appendV_checksum_spec (fun _ => 5) (fun _ => 9)
      { baseFacade with checksum_handoff_func_type := ChecksumType.kCRC32c }
      (initFileState "f") [1, 2] [5, 0, 0, 0] benignWfEnv rfl rfl rfl
      (by decide)).1 (by decide)⟩

/-- C4 counterexample: renaming an untracked source onto a tracked
destination returns OK and leaves the destination entry in
DbFileStateMap, although the source was not present before the call —
the claimed biconditional (t present afterwards iff s present before)
fails at this input. -/
theorem rename_bookkeeping_counterexample :
    (RenameFile renameCexFacade "/a/s" "/a/t" benignRenameEnv).1 =
      IOStatus.ok ∧
    ¬ (alistContains "/a/t"
        (RenameFile renameCexFacade "/a/s" "/a/t"
          benignRenameEnv).2.db_file_state = true ↔
      alistContains "/a/s" renameCexFacade.db_file_state = true) := by
  decide

/-- C4 amended: on an active facade whose DbFileStateMap has no
duplicate keys, after RenameFile(s, t) returns OK the map never
contains s; and for s ≠ t it contains t exactly when it previously
contained s or already contained t (a tracked destination entry is not
removed when the source is untracked). -/
theorem rename_bookkeeping_amended (fs : Facade) (s t : String)
    (env : RenameEnv)
    (hnodup : (fs.db_file_state.map Prod.fst).Nodup)
    (hact : fs.filesystem_active = true)
    (hok : (RenameFile fs s t env).1 = IOStatus.ok) :
    alistContains s (RenameFile fs s t env).2.db_file_state = false ∧
    (s ≠ t →
      alistContains t (RenameFile fs s t env).2.db_file_state =
        (alistContains s fs.db_file_state ||
          alistContains t fs.db_file_state)) := by
  by_cases hpre : InjectMetadataWriteError fs env.metaPreDraw = IOStatus.ok
  · by_cases hu : env.underlying = IOStatus.ok
    · have hdb : (RenameFile fs s t env).2.db_file_state =
          renameDbUpdate fs.db_file_state s t := by
        simp only [RenameFile, Facade.IsFilesystemActive, hact, hpre, hu]
        simp only [Bool.not_true, Bool.false_eq_true, if_false, ne_eq,
          not_true_eq_false, if_true]
        split <;> split <;> rfl
      constructor
      · rw [hdb, renameDbUpdate]
        by_cases hs : alistContains s fs.db_file_state = true
        · rw [if_pos hs]
          exact alistContains_erase_self s _ (nodup_keys_alistInsert t _ _ hnodup)
        · rw [if_neg hs]
          simpa using hs
      · intro hst
        rw [hdb, renameDbUpdate]
        by_cases hs : alistContains s fs.db_file_state = true
        · rw [if_pos hs]
          rw [alistContains_erase_other t s _ hst]
          simp [alistContains_insert_self, hs]
        · rw [if_neg hs]
          have hs' : alistContains s fs.db_file_state = false := by
            simpa using hs
          simp [hs']
    · exfalso
      simp [RenameFile, Facade.IsFilesystemActive, hact, hpre, hu] at hok
  · exfalso
    simp [RenameFile, Facade.IsFilesystemActive, hact, hpre] at hok

/-- Witness for rename_bookkeeping_amended at a concrete input. -/
theorem rename_bookkeeping_amended_witness :
    (RenameFile
      { baseFacade with
          db_file_state := [("/a/s", initFileState "/a/s")] }
      "/a/s" "/a/t" benignRenameEnv).1 = IOStatus.ok ∧
    alistContains "/a/s"
      (RenameFile
        { baseFacade with
            db_file_state := [("/a/s", initFileState "/a/s")] }
        "/a/s" "/a/t" benignRenameEnv).2.db_file_state = false :=
  ⟨by decide,
    (rename_bookkeeping_amended
      { baseFacade with
          db_file_state := [("/a/s", initFileState "/a/s")] }
      "/a/s" "/a/t" benignRenameEnv (by decide) rfl (by decide)).1⟩

/-- Shape of the per-sub-request injector calls of DoMultiRead: exactly
the longest all-OK prefix of the sub-requests is processed, each with op
kMultiReadSingleReq and need_count_increase true. -/
theorem multiReadLoop_calls (ctxOpt : Option ErrorContext) (direct : Bool)
    (rs : List (MRReq × InjEnv)) :
    (multiReadLoop ctxOpt direct rs).2.2.1 =
      ((rs.map Prod.fst).takeWhile (fun r => r.status == IOStatus.ok)).map
        (fun _ => ⟨ErrorOperation.kMultiReadSingleReq, true⟩) := by
  induction rs generalizing ctxOpt with
  | nil => simp [multiReadLoop]
  | cons hd tl ih =>
    obtain ⟨r, e⟩ := hd
    by_cases h : r.status = IOStatus.ok
    · rcases hres : multiReadLoop (InjectThreadSpecificReadError ctxOpt e
          ErrorOperation.kMultiReadSingleReq r.result direct r.scratchAliased
          true).ctx direct tl with ⟨rest1, inj1, calls1, ctx1⟩
      have hcalls := ih (InjectThreadSpecificReadError ctxOpt e
        ErrorOperation.kMultiReadSingleReq r.result direct r.scratchAliased
        true).ctx
      rw [hres] at hcalls
      simp at hcalls
      simp only [multiReadLoop, h, ne_eq, not_true_eq_false, if_false, hres]
      simp [h, hcalls]
    · simp [multiReadLoop, h]

/-- C6 counterexample: with two sub-requests whose delegate statuses are
IOError then OK, the loop breaks at the first and the OK second
sub-request receives no injector call — the trace holds strictly fewer
kMultiReadSingleReq calls than there are OK sub-requests, refuting the
claim that every OK sub-request receives one. -/
theorem multiRead_skips_after_error_counterexample :
    ((doMultiRead baseFacade none
      [(⟨IOStatus.ioError [], [], false⟩, benignInjEnv),
       (⟨IOStatus.ok, [1], false⟩, benignInjEnv)]
      IOStatus.ok benignInjEnv false false).calls.countP
        (fun c => c.op == ErrorOperation.kMultiReadSingleReq)) = 0 ∧
    (([⟨IOStatus.ioError [], [], false⟩,
       ⟨IOStatus.ok, [1], false⟩] : List MRReq).countP
        (fun r => r.status == IOStatus.ok)) = 1 ∧
    ((doMultiRead baseFacade none
      [(⟨IOStatus.ioError [], [], false⟩, benignInjEnv),
       (⟨IOStatus.ok, [1], false⟩, benignInjEnv)]
      IOStatus.ok benignInjEnv false false).calls.countP
        (fun c => c.op == ErrorOperation.kMultiReadSingleReq)) <
      (([⟨IOStatus.ioError [], [], false⟩,
         ⟨IOStatus.ok, [1], false⟩] : List MRReq).countP
          (fun r => r.status == IOStatus.ok)) := by
  refine ⟨?_, ?_, ?_⟩ <;> decide

/-- C6 amended: on an active facade the sub-requests of the longest
all-OK prefix each receive one injector call with op kMultiReadSingleReq
(sub-requests at or after the first delegate error receive none); the
injected flags of those calls are OR-ed by the loop, and exactly one
trailing call with op kMultiRead — whose need_count_increase is the
negation of that OR — is appended iff the delegate's overall status is
OK. -/
theorem multiRead_calls_amended (fs : Facade) (ctxOpt : Option ErrorContext)
    (rs : List (MRReq × InjEnv)) (underlying : IOStatus)
    (trailEnv : InjEnv) (direct rrd : Bool)
    (hact : fs.filesystem_active = true) :
    (multiReadLoop ctxOpt direct rs).2.2.1 =
      ((rs.map Prod.fst).takeWhile (fun r => r.status == IOStatus.ok)).map
        (fun _ => ⟨ErrorOperation.kMultiReadSingleReq, true⟩) ∧
    (doMultiRead fs ctxOpt rs underlying trailEnv direct rrd).calls =
      (multiReadLoop ctxOpt direct rs).2.2.1 ++
        (if underlying = IOStatus.ok then
          [⟨ErrorOperation.kMultiRead, !(multiReadLoop ctxOpt direct rs).2.1⟩]
        else []) := by
  refine ⟨multiReadLoop_calls ctxOpt direct rs, ?_⟩
  rcases hres : multiReadLoop ctxOpt direct rs with ⟨rest1, inj1, calls1, ctx1⟩
  by_cases hu : underlying = IOStatus.ok
  · simp only [doMultiRead, Facade.IsFilesystemActive, hact, Bool.not_true,
      Bool.false_eq_true, if_false, hres, hu, if_true]
    split <;> rfl
  · simp only [doMultiRead, Facade.IsFilesystemActive, hact, Bool.not_true,
      Bool.false_eq_true, if_false, hres, hu, if_false]
    simp [hu]

/-- Witness for multiRead_calls_amended at a concrete input. -/
theorem multiRead_calls_amended_witness :
    baseFacade.filesystem_active = true ∧
    (doMultiRead baseFacade none
      [(⟨IOStatus.ok, [7], false⟩, benignInjEnv)]
      IOStatus.ok benignInjEnv false false).calls =
      (multiReadLoop none false
        [(⟨IOStatus.ok, [7], false⟩, benignInjEnv)]).2.2.1 ++
        [⟨ErrorOperation.kMultiRead,
          !(multiReadLoop none false
            [(⟨IOStatus.ok, [7], false⟩, benignInjEnv)]).2.1⟩] := by
  have h := (multiRead_calls_amended baseFacade none
    [(⟨IOStatus.ok, [7], false⟩, benignInjEnv)] IOStatus.ok benignInjEnv
    false false rfl).2
  exact ⟨rfl, by simpa using h⟩

end FIFS
